import Mathlib

/-!
Shallow embedding of the ChronoSort repository (CLI `chronosort.py` and GUI
`chronosort_gui.py`) for checking its natural-language specification.

Modelling conventions:
* Filesystem timestamps (`st_birthtime`, `st_ctime`, `st_mtime`) are integer
  epoch seconds (`Int`); `datetime.fromtimestamp` is modelled at UTC and
  returns `none` when the resulting year falls outside `datetime`'s
  1..9999 range (in Python this raises and is caught by the enclosing
  `except`, falling back to the current date).
* `datetime.strptime` with the formats `%Y-%m-%d` and `%Y:%m:%d %H:%M:%S`
  is modelled after CPython's `_strptime` regexes: `%Y` is exactly four
  digits, `%m` is `1[0-2]|0[1-9]|[1-9]`, `%d` is `3[01]|[12]\d|0[1-9]|[1-9]`,
  `%H` is `2[0-3]|[0-1]\d|\d`, `%M`/`%S` are `[0-5]\d|\d`, a literal space in
  the format matches one or more whitespace characters, the regex must
  consume the whole input string, and the matched fields must form a valid
  `datetime` (leap-second values 60/61 accepted by `time.strptime`'s `%S`
  regex are rejected by the `datetime` constructor and hence behave exactly
  like a non-match; we therefore fold that case into the `%S` model).
  Ordered regex alternation with backtracking is modelled by trying the
  alternatives of each field in regex order against the continuation.
* EXIF data (`image._getexif()` rendered through the `PIL.ExifTags.TAGS`
  table) is modelled as a list of (tag-name, value) pairs in dictionary
  iteration order; a total metadata read failure (`Image.open` or
  `_getexif` raising) is a distinguished outcome.
* `print`/`self.log` calls of the organizer are modelled as structured
  events; the resolver's informational prints (pure presentation) are not
  modelled.
* `os.makedirs` is modelled as always succeeding; its failure modes are not
  discussed by the spec and touched by no claim.
-/

/-! ### Calendar arithmetic -/

/-- Leap year predicate of the Gregorian calendar (as used by Python's
`datetime`). -/
def isLeapYear (y : Nat) : Bool :=
  y % 4 == 0 && (y % 100 != 0 || y % 400 == 0)

/-- Number of days in a month, Gregorian calendar. -/
def daysInMonth (y m : Nat) : Nat :=
  if m = 2 then (if isLeapYear y then 29 else 28)
  else if m = 4 ∨ m = 6 ∨ m = 9 ∨ m = 11 then 30
  else 31

/-- Civil (proleptic Gregorian) date from days since the Unix epoch. -/
def civilFromDays (z0 : Int) : Int × Nat × Nat :=
  let z := z0 + 719468
  let era := Int.fdiv z 146097
  let doe : Nat := (z - era * 146097).toNat
  let yoe : Nat := (doe - doe / 1460 + doe / 36524 - doe / 146096) / 365
  let doy : Nat := doe - (365 * yoe + yoe / 4 - yoe / 100)
  let mp : Nat := (5 * doy + 2) / 153
  let d : Nat := doy - (153 * mp + 2) / 5 + 1
  let m : Nat := if mp < 10 then mp + 3 else mp - 9
  let y : Int := era * 400 + (yoe : Int) + (if m ≤ 2 then 1 else 0)
  (y, m, d)

/-- `datetime.fromtimestamp` (at UTC), returning the calendar date.
Returns `none` when the year falls outside `datetime`'s supported range
(Python raises there). -/
def fromtimestamp (ts : Int) : Option (Int × Nat × Nat) :=
  let c := civilFromDays (Int.fdiv ts 86400)
  if 1 ≤ c.1 ∧ c.1 ≤ 9999 then some c else none

/-- Left-pad (the decimal representation of) a natural number with zeros. -/
def padNat (width n : Nat) : String :=
  let s := Nat.repr n
  ⟨List.replicate (width - s.length) '0'⟩ ++ s

/-- `strftime('%Y-%m-%d')`: the canonical `YYYY-MM-DD` rendering of a
calendar date. -/
def formatYMD (y : Int) (m d : Nat) : String :=
  (if y < 0 then "-" ++ padNat 4 (-y).toNat else padNat 4 y.toNat)
    ++ "-" ++ padNat 2 m ++ "-" ++ padNat 2 d

/-! ### `datetime.strptime` model -/

/-- Numeric value of an ASCII digit character. -/
def digitVal (c : Char) : Nat := c.toNat - 48

/-- `%Y`: exactly four digits. -/
def parseY4 : List Char → Option (Nat × List Char)
  | a :: b :: c :: d :: r =>
    if a.isDigit ∧ b.isDigit ∧ c.isDigit ∧ d.isDigit then
      some (digitVal a * 1000 + digitVal b * 100 + digitVal c * 10 + digitVal d, r)
    else none
  | _ => none

/-- `%m` = `1[0-2]|0[1-9]|[1-9]`: candidate matches in regex order. -/
def monthCands : List Char → List (Nat × List Char)
  | a :: b :: r =>
    (if a = '1' ∧ '0' ≤ b ∧ b ≤ '2' then [(10 + digitVal b, r)] else [])
      ++ (if a = '0' ∧ '1' ≤ b ∧ b ≤ '9' then [(digitVal b, r)] else [])
      ++ (if '1' ≤ a ∧ a ≤ '9' then [(digitVal a, b :: r)] else [])
  | [a] => if '1' ≤ a ∧ a ≤ '9' then [(digitVal a, [])] else []
  | [] => []

/-- `%d` = `3[01]|[12]\d|0[1-9]|[1-9]`: candidate matches in regex order. -/
def dayCands : List Char → List (Nat × List Char)
  | a :: b :: r =>
    (if a = '3' ∧ '0' ≤ b ∧ b ≤ '1' then [(30 + digitVal b, r)] else [])
      ++ (if ('1' ≤ a ∧ a ≤ '2') ∧ b.isDigit then [(10 * digitVal a + digitVal b, r)] else [])
      ++ (if a = '0' ∧ '1' ≤ b ∧ b ≤ '9' then [(digitVal b, r)] else [])
      ++ (if '1' ≤ a ∧ a ≤ '9' then [(digitVal a, b :: r)] else [])
  | [a] => if '1' ≤ a ∧ a ≤ '9' then [(digitVal a, [])] else []
  | [] => []

/-- `%H` = `2[0-3]|[0-1]\d|\d`: candidate matches in regex order. -/
def hourCands : List Char → List (Nat × List Char)
  | a :: b :: r =>
    (if a = '2' ∧ '0' ≤ b ∧ b ≤ '3' then [(20 + digitVal b, r)] else [])
      ++ (if ('0' ≤ a ∧ a ≤ '1') ∧ b.isDigit then [(10 * digitVal a + digitVal b, r)] else [])
      ++ (if a.isDigit then [(digitVal a, b :: r)] else [])
  | [a] => if a.isDigit then [(digitVal a, [])] else []
  | [] => []

/-- `%M` (and, given `datetime`'s rejection of leap seconds, effectively
`%S`) = `[0-5]\d|\d`: candidate matches in regex order. -/
def minSecCands : List Char → List (Nat × List Char)
  | a :: b :: r =>
    (if ('0' ≤ a ∧ a ≤ '5') ∧ b.isDigit then [(10 * digitVal a + digitVal b, r)] else [])
      ++ (if a.isDigit then [(digitVal a, b :: r)] else [])
  | [a] => if a.isDigit then [(digitVal a, [])] else []
  | [] => []

/-- Python `\s` (ASCII range). -/
def isPySpace (c : Char) : Bool :=
  c = ' ' ∨ c = '\t' ∨ c = '\n' ∨ c = '\r' ∨ c = '\x0b' ∨ c = '\x0c'

/-- A literal space in a `strptime` format: one or more whitespace
characters (greedy; the following field always starts with a digit, so
maximal munch is exact here). -/
def skipSpaces1 : List Char → Option (List Char)
  | c :: r => if isPySpace c then some (r.dropWhile isPySpace) else none
  | [] => none

/-- `datetime.strptime(s, '%Y-%m-%d')`, returning the calendar date.
Includes the `datetime` constructor's validation. -/
def strptimeYMD (s : String) : Option (Nat × Nat × Nat) :=
  match parseY4 s.data with
  | none => none
  | some (y, r1) =>
    match r1 with
    | '-' :: r2 =>
      (monthCands r2).findSome? fun mc =>
        match mc.2 with
        | '-' :: r4 =>
          (dayCands r4).findSome? fun dc =>
            if dc.2 = [] then
              if 1 ≤ y ∧ y ≤ 9999 ∧ dc.1 ≤ daysInMonth y mc.1 then
                some (y, mc.1, dc.1)
              else none
            else none
        | _ => none
    | _ => none

/-- `datetime.strptime(v, '%Y:%m:%d %H:%M:%S')`, returning the calendar
date part (the time-of-day fields are validated by the field regexes and
the `datetime` constructor but not otherwise used by the program). -/
def strptimeExif (s : String) : Option (Nat × Nat × Nat) :=
  match parseY4 s.data with
  | none => none
  | some (y, r1) =>
    match r1 with
    | ':' :: r2 =>
      (monthCands r2).findSome? fun mc =>
        match mc.2 with
        | ':' :: r4 =>
          (dayCands r4).findSome? fun dc =>
            match skipSpaces1 dc.2 with
            | none => none
            | some r5 =>
              (hourCands r5).findSome? fun hc =>
                match hc.2 with
                | ':' :: r6 =>
                  (minSecCands r6).findSome? fun nc =>
                    match nc.2 with
                    | ':' :: r7 =>
                      (minSecCands r7).findSome? fun sc =>
                        if sc.2 = [] then
                          if 1 ≤ y ∧ y ≤ 9999 ∧ dc.1 ≤ daysInMonth y mc.1 then
                            some (y, mc.1, dc.1)
                          else none
                        else none
                    | _ => none
                | _ => none
        | _ => none
    | _ => none

/-! ### Date resolver (`chronosort.py`) -/

/-- Outcome of `image._getexif()` for a file, with tag ids rendered through
the `PIL.ExifTags.TAGS` table to names, in dictionary iteration order. -/
inductive ExifRead where
  | err : ExifRead
  | noExif : ExifRead
  | tags : List (String × String) → ExifRead
deriving DecidableEq

/-- The fields of `os.stat` the program reads: `st_birthtime` (absent on
platforms that do not expose it), `st_ctime` and `st_mtime`, as epoch
seconds. -/
structure StatData where
  birth? : Option Int
  ctime : Int
  mtime : Int
deriving DecidableEq

/-- The externally observable behaviour of one file: its EXIF read outcome,
its `os.stat` outcome (`none` = `os.stat` raises), and whether
`shutil.move` out of the directory succeeds for it. -/
structure FileData where
  exifRead : ExifRead
  stat? : Option StatData
  movable : Bool
deriving DecidableEq

/-- Ambient execution environment: whether Pillow imported
(`PILLOW_AVAILABLE`), the current date (`datetime.now()`), and the target
directory path. -/
structure Env where
  pillow : Bool
  nowY : Int
  nowM : Nat
  nowD : Nat
  targetPath : String

/-- `str.lower()` (ASCII case folding; file-name extensions are ASCII). -/
def pyLower (s : String) : String := ⟨s.data.map Char.toLower⟩

/-- `str.endswith(post)`. -/
def pyEndsWith (s post : String) : Bool := post.data.isSuffixOf s.data

/-- `str.startswith(pre)`. -/
def pyStartsWith (s pre : String) : Bool := pre.data.isPrefixOf s.data

/-- `image_extensions = {'.jpg', '.jpeg', '.tiff', '.tif'}`. -/
def image_extensions : List String := [".jpg", ".jpeg", ".tiff", ".tif"]

/-- `any(file_path.lower().endswith(ext) for ext in image_extensions)`. -/
def isImagePath (p : String) : Bool :=
  image_extensions.any fun e => pyEndsWith (pyLower p) e

/-- `date_tags` of `get_exif_date`, in order of preference. -/
def date_tags : List String := ["DateTimeOriginal", "DateTimeDigitized", "DateTime"]

/-- Inner loop of `get_exif_date`: scan the EXIF items for the given tag
name; the first item with that name whose value parses wins, a
`ValueError` continues the scan. -/
def findTagDate (items : List (String × String)) (tag : String) : Option String :=
  match items with
  | [] => none
  | (t, v) :: rest =>
    if t = tag then
      match strptimeExif v with
      | some ymd => some (formatYMD (ymd.1 : Int) ymd.2.1 ymd.2.2)
      | none => findTagDate rest tag
    else findTagDate rest tag

/-- `get_exif_date(file_path)`. -/
def get_exif_date (pillow : Bool) (file_path : String) (er : ExifRead) : Option String :=
  if pillow = false then none
  else if isImagePath file_path = false then none
  else
    match er with
    | .err => none
    | .noExif => none
    | .tags items => date_tags.findSome? (findTagDate items)

/-- `get_file_date(file_path)` of the CLI. -/
def get_file_date (env : Env) (file_path : String) (fd : FileData) : String :=
  match get_exif_date env.pillow file_path fd.exifRead with
  | some d => d
  | none =>
    match fd.stat? with
    | none => formatYMD env.nowY env.nowM env.nowD
    | some st =>
      let creation := match st.birth? with
        | some b => b
        | none => st.ctime
      match fromtimestamp (min creation st.mtime) with
      | some c => formatYMD c.1 c.2.1 c.2.2
      | none => formatYMD env.nowY env.nowM env.nowD

namespace ChronoSortGUI

/-- `ChronoSortGUI.get_file_date(file_path)` of the GUI (no EXIF step). -/
def get_file_date (env : Env) (file_path : String) (fd : FileData) : String :=
  match fd.stat? with
  | none => formatYMD env.nowY env.nowM env.nowD
  | some st =>
    let creation := match st.birth? with
      | some b => b
      | none => st.ctime
    match fromtimestamp (min creation st.mtime) with
    | some c => formatYMD c.1 c.2.1 c.2.2
    | none => formatYMD env.nowY env.nowM env.nowD

end ChronoSortGUI

/-- `is_date_folder(folder_name)`. -/
def is_date_folder (folder_name : String) : Bool :=
  (strptimeYMD folder_name).isSome

/-! ### Directory organizer (`organize_files` of `chronosort.py`) -/

/-- Index of the last occurrence of `'.'` in a character list. -/
def lastDotIdx (cs : List Char) : Option Nat :=
  match cs.reverse.findIdx? (fun c => c = '.') with
  | none => none
  | some j => some (cs.length - 1 - j)

/-- `os.path.splitext` restricted to basenames (no path separator), as the
organizer applies it to `os.listdir` entries: split at the last dot unless
every character before it is a dot (leading dots do not start an
extension). -/
def splitext (p : String) : String × String :=
  let cs := p.data
  match lastDotIdx cs with
  | none => (p, "")
  | some i =>
    if 0 < i ∧ ¬ (cs.take i).all (fun c => c = '.') then
      (⟨cs.take i⟩, ⟨cs.drop i⟩)
    else (p, "")

/-- `f"{base}_{counter}{ext}"`. -/
def mkName (base ext : String) (n : Nat) : String :=
  base ++ "_" ++ Nat.repr n ++ ext

/-- The `while os.path.exists(destination_path)` disambiguation loop,
given the current contents of the destination folder. The fuel argument is
a termination device; `occ.length + 1` candidates always suffice (proved
below), so the fuel-exhausted branch is never reached from `destName`. -/
def findFree (occ : List String) (base ext : String) : Nat → Nat → String
  | 0, n => mkName base ext n
  | fuel + 1, n =>
    let cand := mkName base ext n
    if cand ∈ occ then findFree occ base ext fuel (n + 1) else cand

/-- Destination name chosen by the organizer inside the date folder with
contents `occ`: the original name if free, otherwise `base_N ext` for the
first free `N ≥ 1`. -/
def destName (occ : List String) (item : String) : String :=
  if item ∈ occ then
    let be := splitext item
    findFree occ be.1 be.2 (occ.length + 1) 1
  else item

/-- Type of an immediate child of the target directory, together with the
observable behaviour of regular files. -/
inductive EntryInfo where
  | dir : EntryInfo
  | file : FileData → EntryInfo
deriving DecidableEq

/-- An immediate child of the target directory. -/
structure Entry where
  name : String
  info : EntryInfo
deriving DecidableEq

/-- State of the target directory: its immediate children, and the file
names contained in each of its subdirectories. -/
structure FS where
  root : List Entry
  sub : List (String × List String)
deriving DecidableEq

/-- Look up an immediate child of the target directory by name. -/
def lookupRoot (fs : FS) (n : String) : Option EntryInfo :=
  (fs.root.find? (fun e => e.name == n)).map (·.info)

/-- `os.path.isdir(os.path.join(directory_path, item))`. -/
def isDirAt (fs : FS) (n : String) : Bool :=
  match lookupRoot fs n with
  | some .dir => true
  | _ => false

/-- `os.path.exists(os.path.join(directory_path, name))`. -/
def existsAtRoot (fs : FS) (n : String) : Bool :=
  (lookupRoot fs n).isSome

/-- Contents of a subdirectory of the target directory, if it exists. -/
def subContents (fs : FS) (folder : String) : Option (List String) :=
  (fs.sub.find? (fun p => p.1 == folder)).map (·.2)

/-- `create_date_folder(base_path, date_string)`: create the folder unless
a child of that name (file or directory) already exists. Returns the new
state and whether the folder was created. -/
def create_date_folder (fs : FS) (date : String) : FS × Bool :=
  if existsAtRoot fs date then (fs, false)
  else ({ root := fs.root ++ [⟨date, .dir⟩], sub := fs.sub ++ [(date, [])] }, true)

/-- `shutil.move(item_path, destination_path)`: the entry leaves the target
directory and `dest` appears in the destination folder. -/
def moveFile (fs : FS) (item folder dest : String) : FS :=
  { root := fs.root.eraseP (fun e => e.name == item),
    sub :=
      if (fs.sub.find? (fun p => p.1 == folder)).isSome then
        fs.sub.map (fun p => if p.1 == folder then (p.1, p.2 ++ [dest]) else p)
      else fs.sub ++ [(folder, [dest])] }

/-- Structured rendering of the organizer's per-entry output lines. -/
inductive Event where
  | skipDateFolder : String → Event
  | skipDir : String → Event
  | skipEntry : String → Event
  | createdFolder : String → Event
  | wouldCreateFolder : String → Event
  | movedFile : String → String → String → Event
  | wouldMove : String → String → Event
  | errorMoving : String → Event
deriving DecidableEq

/-- Running state of one `organize_files` invocation: the filesystem, the
`files_moved` and `files_skipped` counters, and the emitted output. -/
structure RunState where
  fs : FS
  moved : Nat
  skipped : Nat
  log : List Event
deriving DecidableEq

/-- `os.path.basename(__file__)` of the CLI script. -/
def scriptSelf : String := "chronosort.py"

/-- `os.stat`/`shutil.move` behaviour of a path that is absent by the time
it is examined: both raise. -/
def missingFile : FileData := ⟨.err, none, false⟩

/-- One iteration of the `for item in items` loop of `organize_files`. -/
def stepItem (env : Env) (dryRun : Bool) (st : RunState) (item : String) : RunState :=
  if isDirAt st.fs item then
    if is_date_folder item then
      { st with log := st.log ++ [.skipDateFolder item] }
    else
      { st with log := st.log ++ [.skipDir item] }
  else if pyStartsWith item "." ∨ item = scriptSelf then
    { st with skipped := st.skipped + 1, log := st.log ++ [.skipEntry item] }
  else
    let item_path := env.targetPath ++ "/" ++ item
    let fd := match lookupRoot st.fs item with
      | some (.file fd) => fd
      | _ => missingFile
    let file_date := get_file_date env item_path fd
    if dryRun = false then
      let cf := create_date_folder st.fs file_date
      let log1 := st.log ++ (if cf.2 then [Event.createdFolder file_date] else [])
      let occ := match subContents cf.1 file_date with
        | some l => l
        | none => []
      let dest := destName occ item
      if fd.movable ∧ isDirAt cf.1 file_date then
        { fs := moveFile cf.1 item file_date dest,
          moved := st.moved + 1, skipped := st.skipped,
          log := log1 ++ [.movedFile item file_date dest] }
      else
        { st with fs := cf.1, skipped := st.skipped + 1,
                  log := log1 ++ [.errorMoving item] }
    else
      { st with moved := st.moved + 1,
                log := st.log ++ [.wouldCreateFolder file_date, .wouldMove item file_date] }

/-- The directory-level preconditions probed before the loop:
`os.path.exists`, `os.path.isdir`, and `os.listdir` not raising
`PermissionError`. -/
structure Pre where
  dirExists : Bool
  dirIsDir : Bool
  listOk : Bool

/-- Initial run state. -/
def initState (fs : FS) : RunState := ⟨fs, 0, 0, []⟩

/-- `organize_files(directory_path, dry_run)`: the returned `Bool` and the
final run state. -/
def organize_files (env : Env) (pre : Pre) (fs : FS) (dryRun : Bool) : Bool × RunState :=
  if pre.dirExists = false then (false, initState fs)
  else if pre.dirIsDir = false then (false, initState fs)
  else if pre.listOk = false then (false, initState fs)
  else (true, (fs.root.map (·.name)).foldl (stepItem env dryRun) (initState fs))

/-! ### Spec-side definitions (for refinement-style comparisons) -/

/-- The spec's tag search, stated with combinators directly from its words:
"search tags in priority order ...; use the first tag present whose value
parses". -/
def specExifSearch (items : List (String × String)) : Option String :=
  ["DateTimeOriginal", "DateTimeDigitized", "DateTime"].findSome? fun tag =>
    items.findSome? fun p =>
      if p.1 = tag then (strptimeExif p.2).map (fun t => formatYMD (t.1 : Int) t.2.1 t.2.2)
      else none

/-- The spec's date-folder test, stated from its words: the name matches
`YYYY-MM-DD` exactly (four digits, dash, two digits, dash, two digits) and
denotes a valid calendar date. -/
def specDateFolderExact (s : String) : Bool :=
  match s.data with
  | [y1, y2, y3, y4, h1, m1, m2, h2, d1, d2] =>
    y1.isDigit && y2.isDigit && y3.isDigit && y4.isDigit
      && h1 = '-' && m1.isDigit && m2.isDigit && h2 = '-' && d1.isDigit && d2.isDigit
      &&
        (let y := digitVal y1 * 1000 + digitVal y2 * 100 + digitVal y3 * 10 + digitVal y4
         let m := digitVal m1 * 10 + digitVal m2
         let d := digitVal d1 * 10 + digitVal d2
         1 ≤ y && 1 ≤ m && m ≤ 12 && 1 ≤ d && d ≤ daysInMonth y m)
  | _ => false

/-- The events that increment the `files_moved` counter. -/
def countsAsMoved : Event → Bool
  | .movedFile _ _ _ => true
  | .wouldMove _ _ => true
  | _ => false

/-- The events that increment the `files_skipped` counter. -/
def countsAsSkipped : Event → Bool
  | .skipEntry _ => true
  | .errorMoving _ => true
  | _ => false

/-! ### Decimal numerals: helper development for the disambiguation loop -/

/-- Decimal digit string of a natural number (most significant first),
defined by structural recursion on the value. -/
def decDigits (n : Nat) : List Char :=
  if h : n < 10 then [Nat.digitChar n]
  else decDigits (n / 10) ++ [Nat.digitChar (n % 10)]
decreasing_by exact Nat.div_lt_self (by omega) (by omega)

/-- Numeric value of an ASCII digit character (decoder side). -/
def decodeDigit (c : Char) : Nat := c.toNat - 48

/-- Value of a decimal digit string. -/
def decVal (cs : List Char) : Nat :=
  cs.foldl (fun a c => 10 * a + decodeDigit c) 0

theorem toDigitsCore_eq_decDigits :
    ∀ (fuel n : Nat) (ds : List Char), n < fuel →
      Nat.toDigitsCore 10 fuel n ds = decDigits n ++ ds := by
  intro fuel
  induction fuel with
  | zero => intro n ds h; omega
  | succ f ih =>
    intro n ds h
    by_cases h10 : n / 10 = 0
    · have hn : n < 10 := by
        rcases Nat.lt_or_ge n 10 with h' | h'
        · exact h'
        · exact absurd h10 (by have := Nat.div_le_div_right (c := 10) h'; simp at this; omega)
      rw [decDigits]
      simp [Nat.toDigitsCore, h10, hn, Nat.mod_eq_of_lt hn]
    · have hn : 10 ≤ n := by
        by_contra hc
        exact h10 (Nat.div_eq_of_lt (by omega))
      have hlt : n / 10 < f := by
        have : n / 10 < n := Nat.div_lt_self (by omega) (by omega)
        omega
      rw [decDigits]
      simp only [Nat.toDigitsCore, h10, if_false]
      rw [ih (n / 10) (Nat.digitChar (n % 10) :: ds) hlt]
      simp [dif_neg (by omega : ¬ n < 10)]

theorem toDigits_eq_decDigits (n : Nat) : Nat.toDigits 10 n = decDigits n := by
  have := toDigitsCore_eq_decDigits (n + 1) n [] (Nat.lt_succ_self n)
  simpa [Nat.toDigits] using this

theorem decodeDigit_digitChar {d : Nat} (h : d < 10) :
    decodeDigit (Nat.digitChar d) = d := by
  interval_cases d <;> rfl

theorem decVal_append_digit (cs : List Char) (c : Char) :
    decVal (cs ++ [c]) = 10 * decVal cs + decodeDigit c := by
  have : ∀ (a : Nat), List.foldl (fun a c => 10 * a + decodeDigit c) a (cs ++ [c])
      = 10 * List.foldl (fun a c => 10 * a + decodeDigit c) a cs + decodeDigit c := by
    intro a
    rw [List.foldl_append]
    rfl
  simpa [decVal] using this 0

theorem decVal_decDigits (n : Nat) : decVal (decDigits n) = n := by
  induction n using Nat.strong_induction_on with
  | _ n ih =>
    by_cases h : n < 10
    · rw [decDigits]
      simp [h, decVal, decodeDigit_digitChar h]
    · rw [decDigits]
      simp only [h, dif_neg, not_false_iff]
      rw [decVal_append_digit]
      rw [ih (n / 10) (Nat.div_lt_self (by omega) (by omega))]
      rw [decodeDigit_digitChar (Nat.mod_lt n (by omega))]
      omega

theorem decDigits_injective : Function.Injective decDigits := by
  intro m n h
  have := congrArg decVal h
  simpa [decVal_decDigits] using this

theorem natRepr_injective : Function.Injective Nat.repr := by
  intro m n h
  apply decDigits_injective
  have hd := congrArg String.data h
  simpa [Nat.repr, toDigits_eq_decDigits, List.asString] using hd

theorem mkName_right_injective (base ext : String) {m n : Nat}
    (h : mkName base ext m = mkName base ext n) : m = n := by
  have hd := congrArg String.data h
  simp only [mkName, String.data_append] at hd
  have h1 := List.append_cancel_right hd
  have h2 := List.append_cancel_left h1
  exact natRepr_injective (String.ext h2)

/-- Among the first `occ.length + 1` candidate suffixes there is always a
free name: the candidates are pairwise distinct, so they cannot all lie in
`occ`. -/
theorem exists_free_name (occ : List String) (base ext : String) :
    ∃ n, 1 ≤ n ∧ n ≤ occ.length + 1 ∧ mkName base ext n ∉ occ := by
  by_contra hall
  push_neg at hall
  have hinj : Set.InjOn (mkName base ext) (Finset.Icc 1 (occ.length + 1)) :=
    fun a _ b _ hab => mkName_right_injective base ext hab
  have hsub : (Finset.Icc 1 (occ.length + 1)).image (mkName base ext) ⊆ occ.toFinset := by
    intro s hs
    rcases Finset.mem_image.mp hs with ⟨n, hn, rfl⟩
    rcases Finset.mem_Icc.mp hn with ⟨h1, h2⟩
    exact List.mem_toFinset.mpr (hall n h1 h2)
  have hcard1 : ((Finset.Icc 1 (occ.length + 1)).image (mkName base ext)).card
      = occ.length + 1 := by
    rw [Finset.card_image_of_injOn hinj, Nat.card_Icc]
    omega
  have hcard2 : occ.toFinset.card ≤ occ.length := occ.toFinset_card_le
  have := Finset.card_le_card hsub
  omega

/-- Behaviour of the disambiguation loop: provided some candidate within
the fuel budget is free, the loop returns the first free candidate. -/
theorem findFree_spec (occ : List String) (base ext : String) :
    ∀ (fuel n : Nat), (∃ k, n ≤ k ∧ k < n + fuel ∧ mkName base ext k ∉ occ) →
      findFree occ base ext fuel n ∉ occ ∧
      ∃ N, n ≤ N ∧ findFree occ base ext fuel n = mkName base ext N ∧
        ∀ k, n ≤ k → k < N → mkName base ext k ∈ occ := by
  intro fuel
  induction fuel with
  | zero =>
    intro n h
    rcases h with ⟨k, h1, h2, _⟩
    omega
  | succ f ih =>
    intro n h
    by_cases hmem : mkName base ext n ∈ occ
    · have hnext : ∃ k, n + 1 ≤ k ∧ k < (n + 1) + f ∧ mkName base ext k ∉ occ := by
        rcases h with ⟨k, h1, h2, h3⟩
        refine ⟨k, ?_, by omega, h3⟩
        rcases Nat.eq_or_lt_of_le h1 with rfl | hlt
        · exact absurd hmem h3
        · omega
      rcases ih (n + 1) hnext with ⟨hfree, N, hN1, hN2, hN3⟩
      refine ⟨?_, N, by omega, ?_, ?_⟩
      · simpa [findFree, hmem] using hfree
      · simpa [findFree, hmem] using hN2
      · intro k hk1 hk2
        rcases Nat.eq_or_lt_of_le hk1 with rfl | hlt
        · exact hmem
        · exact hN3 k hlt hk2
    · refine ⟨?_, n, le_refl n, ?_, ?_⟩
      · simpa [findFree, hmem] using hmem
      · simp [findFree, hmem]
      · intro k hk1 hk2
        omega

/-- The organizer's chosen destination name never collides with an
existing file of the destination folder. -/
theorem destName_not_mem (occ : List String) (item : String) :
    destName occ item ∉ occ := by
  by_cases h : item ∈ occ
  · rcases exists_free_name occ (splitext item).1 (splitext item).2 with ⟨k, h1, h2, h3⟩
    have := (findFree_spec occ (splitext item).1 (splitext item).2 (occ.length + 1) 1
      ⟨k, h1, by omega, h3⟩).1
    simpa [destName, h] using this
  · simpa [destName, h] using h

/-- When the original name collides, the chosen name is `base_N ext` for
the least free `N ≥ 1`. -/
theorem destName_least (occ : List String) (item : String) (h : item ∈ occ) :
    ∃ N, 1 ≤ N ∧ destName occ item = mkName (splitext item).1 (splitext item).2 N ∧
      ∀ k, 1 ≤ k → k < N → mkName (splitext item).1 (splitext item).2 k ∈ occ := by
  rcases exists_free_name occ (splitext item).1 (splitext item).2 with ⟨k, h1, h2, h3⟩
  rcases (findFree_spec occ (splitext item).1 (splitext item).2 (occ.length + 1) 1
    ⟨k, h1, by omega, h3⟩).2 with ⟨N, hN1, hN2, hN3⟩
  exact ⟨N, hN1, by simpa [destName, h] using hN2, hN3⟩

/-! ### Helper lemmas about the resolver -/

theorem findTagDate_shape :
    ∀ (items : List (String × String)) (tag s : String),
      findTagDate items tag = some s → ∃ (y : Int) (m d : Nat), s = formatYMD y m d := by
  intro items
  induction items with
  | nil => intro tag s h; simp [findTagDate] at h
  | cons p rest ih =>
    intro tag s h
    rw [findTagDate] at h
    by_cases ht : p.1 = tag
    · simp only [ht, if_true] at h
      cases hp : strptimeExif p.2 with
      | none => rw [hp] at h; exact ih tag s h
      | some ymd =>
        rw [hp] at h
        exact ⟨(ymd.1 : Int), ymd.2.1, ymd.2.2, (Option.some_inj.mp h).symm⟩
    · simp only [ht, if_false] at h
      exact ih tag s h

theorem findSome?_eq_some_imp {α β : Type} (l : List α) (f : α → Option β) (b : β)
    (h : l.findSome? f = some b) : ∃ a, a ∈ l ∧ f a = some b := by
  induction l with
  | nil => simp [List.findSome?] at h
  | cons x xs ih =>
    rw [List.findSome?] at h
    cases hx : f x with
    | some v =>
      rw [hx] at h
      exact ⟨x, List.mem_cons_self x xs, hx.trans h⟩
    | none =>
      rw [hx] at h
      rcases ih h with ⟨a, ha, hfa⟩
      exact ⟨a, List.mem_cons_of_mem x ha, hfa⟩

theorem get_exif_date_shape (p : Bool) (path : String) (er : ExifRead) (s : String)
    (h : get_exif_date p path er = some s) : ∃ (y : Int) (m d : Nat), s = formatYMD y m d := by
  unfold get_exif_date at h
  by_cases hp : p = false
  · simp [hp] at h
  · simp only [hp, if_false] at h
    by_cases hi : isImagePath path = false
    · simp [hi] at h
    · simp only [hi, if_false] at h
      cases er with
      | err => simp at h
      | noExif => simp at h
      | tags items =>
        rcases findSome?_eq_some_imp _ _ _ h with ⟨tag, _, htag⟩
        exact findTagDate_shape items tag s htag

theorem findTagDate_eq_combinator :
    ∀ (items : List (String × String)) (tag : String),
      findTagDate items tag = items.findSome? fun q =>
        if q.1 = tag then (strptimeExif q.2).map (fun t => formatYMD (t.1 : Int) t.2.1 t.2.2)
        else none := by
  intro items
  induction items with
  | nil => intro tag; rfl
  | cons q rest ih =>
    intro tag
    rw [findTagDate, List.findSome?]
    by_cases ht : q.1 = tag
    · simp only [ht, if_true]
      cases hq : strptimeExif q.2 with
      | none => simpa using ih tag
      | some ymd => simp
    · simp only [ht, if_false]
      exact ih tag

/-! ### Claims about the date resolver -/

/-- C1: For every file lacking parseable capture metadata (EXIF resolution
yields nothing), when the platform exposes the filesystem birth time and
`os.stat` succeeds, the resolved date is the earlier of birth time and
modification time, formatted `YYYY-MM-DD`. -/
theorem claim_C1 (env : Env) (path : String) (fd : FileData) (st : StatData) (b : Int)
    (y : Int) (m d : Nat)
    (hexif : get_exif_date env.pillow path fd.exifRead = none)
    (hstat : fd.stat? = some st) (hbirth : st.birth? = some b)
    (hts : fromtimestamp (min b st.mtime) = some (y, m, d)) :
    get_file_date env path fd = formatYMD y m d := by
  simp [get_file_date, hexif, hstat, hbirth, hts]

theorem claim_C1_witness :
    get_file_date ⟨false, 2025, 1, 1, "/t"⟩ "/t/notes.txt"
        ⟨ExifRead.noExif, some ⟨some 86400, 0, 172800⟩, true⟩ = formatYMD 1970 1 2 :=
  claim_C1 ⟨false, 2025, 1, 1, "/t"⟩ "/t/notes.txt"
    ⟨ExifRead.noExif, some ⟨some 86400, 0, 172800⟩, true⟩ ⟨some 86400, 0, 172800⟩ 86400
    1970 1 2 (by decide) rfl rfl (by decide)

/-- C3: The resolver never fails: it always returns a `YYYY-MM-DD` string,
and when its internal steps error (the EXIF step yields nothing and
`os.stat` raises) it returns the current date rather than propagating. -/
theorem claim_C3 (env : Env) (path : String) (fd : FileData) :
    (∃ (y : Int) (m d : Nat), get_file_date env path fd = formatYMD y m d) ∧
    (get_exif_date env.pillow path fd.exifRead = none → fd.stat? = none →
      get_file_date env path fd = formatYMD env.nowY env.nowM env.nowD) := by
  constructor
  · cases hex : get_exif_date env.pillow path fd.exifRead with
    | some s =>
      rcases get_exif_date_shape env.pillow path fd.exifRead s hex with ⟨y, m, d, rfl⟩
      exact ⟨y, m, d, by simp [get_file_date, hex]⟩
    | none =>
      cases hstat : fd.stat? with
      | none => exact ⟨env.nowY, env.nowM, env.nowD, by simp [get_file_date, hex, hstat]⟩
      | some st =>
        cases hts : fromtimestamp (min (match st.birth? with
            | some b => b
            | none => st.ctime) st.mtime) with
        | none =>
          exact ⟨env.nowY, env.nowM, env.nowD, by simp [get_file_date, hex, hstat, hts]⟩
        | some c =>
          exact ⟨c.1, c.2.1, c.2.2, by simp [get_file_date, hex, hstat, hts]⟩
  · intro hex hstat
    simp [get_file_date, hex, hstat]

theorem claim_C3_witness :
    get_file_date ⟨true, 2025, 10, 12, "/t"⟩ "/t/gone.txt"
        ⟨ExifRead.err, none, false⟩ = formatYMD 2025 10 12 :=
  (claim_C3 ⟨true, 2025, 10, 12, "/t"⟩ "/t/gone.txt" ⟨ExifRead.err, none, false⟩).2
    (by decide) rfl

/-- C9 (counterexample): the CLI and GUI resolvers disagree on an image
file carrying parseable capture metadata — the GUI resolver has no EXIF
step. -/
theorem claim_C9_counterexample :
    get_file_date ⟨true, 2025, 1, 1, "/t"⟩ "/t/photo.jpg"
        ⟨ExifRead.tags [("DateTimeOriginal", "2023:06:01 12:00:00")], some ⟨some 0, 0, 0⟩, true⟩
      ≠ ChronoSortGUI.get_file_date ⟨true, 2025, 1, 1, "/t"⟩ "/t/photo.jpg"
        ⟨ExifRead.tags [("DateTimeOriginal", "2023:06:01 12:00:00")], some ⟨some 0, 0, 0⟩, true⟩ := by
  decide

/-- C9 (amended): the filesystem-timestamp fallback logic is shared — the
CLI and GUI resolvers agree on every file on which the CLI's EXIF step
yields nothing; the GUI resolver simply lacks the EXIF step, so the two
may differ on images with parseable capture metadata. -/
theorem claim_C9 (env : Env) (path : String) (fd : FileData)
    (h : get_exif_date env.pillow path fd.exifRead = none) :
    get_file_date env path fd = ChronoSortGUI.get_file_date env path fd := by
  simp [get_file_date, ChronoSortGUI.get_file_date, h]

theorem claim_C9_witness :
    get_file_date ⟨false, 2025, 1, 1, "/t"⟩ "/t/notes.txt"
        ⟨ExifRead.noExif, some ⟨none, 5, 3⟩, true⟩
      = ChronoSortGUI.get_file_date ⟨false, 2025, 1, 1, "/t"⟩ "/t/notes.txt"
        ⟨ExifRead.noExif, some ⟨none, 5, 3⟩, true⟩ :=
  claim_C9 ⟨false, 2025, 1, 1, "/t"⟩ "/t/notes.txt"
    ⟨ExifRead.noExif, some ⟨none, 5, 3⟩, true⟩ (by decide)

/-- C2: for an image file with the metadata capability available, the EXIF
resolver equals the spec's search (priority order original / digitized /
last-modified, first tag whose value parses wins, parse failures skipped);
a non-image extension or absent capability yields nothing; and a total
metadata read failure makes the resolver fall through to the
filesystem-timestamp step (the EXIF-free resolver). -/
theorem claim_C2 (env : Env) (path : String) :
    (env.pillow = true → isImagePath path = true →
      ∀ items, get_exif_date env.pillow path (ExifRead.tags items) = specExifSearch items) ∧
    (isImagePath path = false → ∀ er, get_exif_date env.pillow path er = none) ∧
    (env.pillow = false → ∀ er, get_exif_date env.pillow path er = none) ∧
    (∀ fd : FileData, fd.exifRead = ExifRead.err →
      get_file_date env path fd = ChronoSortGUI.get_file_date env path fd) := by
  refine ⟨?_, ?_, ?_, ?_⟩
  · intro hp hi items
    have h1 : get_exif_date env.pillow path (ExifRead.tags items)
        = List.findSome? (findTagDate items) date_tags := by
      simp [get_exif_date, hp, hi]
    rw [h1]
    simp only [specExifSearch, date_tags]
    congr 1
    funext tag
    exact findTagDate_eq_combinator items tag
  · intro hi er
    simp [get_exif_date, hi]
  · intro hp er
    simp [get_exif_date, hp]
  · intro fd herr
    have hnone : get_exif_date env.pillow path fd.exifRead = none := by
      rw [herr]
      unfold get_exif_date
      by_cases hp : env.pillow = false
      · simp [hp]
      · by_cases hi : isImagePath path = false <;> simp [hp, hi]
    simp [get_file_date, ChronoSortGUI.get_file_date, hnone]

theorem claim_C2_witness :
    get_exif_date true "/t/photo.jpg"
        (ExifRead.tags [("DateTimeOriginal", "bad"), ("DateTime", "2021:02:03 04:05:06")])
      = specExifSearch [("DateTimeOriginal", "bad"), ("DateTime", "2021:02:03 04:05:06")] :=
  (claim_C2 ⟨true, 2025, 1, 1, "/t"⟩ "/t/photo.jpg").1 rfl (by decide)
    [("DateTimeOriginal", "bad"), ("DateTime", "2021:02:03 04:05:06")]

/-! ### Helper lemmas about the organizer -/

theorem stepItem_dry_fs (env : Env) (st : RunState) (item : String) :
    (stepItem env true st item).fs = st.fs := by
  simp only [stepItem]
  split_ifs <;> simp_all

theorem foldl_dry_fs (env : Env) (items : List String) :
    ∀ st : RunState, (items.foldl (stepItem env true) st).fs = st.fs := by
  induction items with
  | nil => intro st; rfl
  | cons x xs ih =>
    intro st
    rw [List.foldl_cons, ih (stepItem env true st x), stepItem_dry_fs]

/-! ### Claims about the organizer -/

/-- C5: dry-run performs no filesystem mutation: for every directory state
and precondition outcome, the filesystem after `organize_files` in dry-run
mode equals the filesystem before it. -/
theorem claim_C5 (env : Env) (pre : Pre) (fs : FS) :
    ((organize_files env pre fs true).2).fs = fs := by
  unfold organize_files
  split
  · rfl
  · split
    · rfl
    · split
      · rfl
      · exact foldl_dry_fs env (fs.root.map (·.name)) (initState fs)

/-- C6: `organize_files` returns overall failure exactly when a
directory-level precondition fails (target missing, target not a
directory, or permission denied listing it), and in that case it has had
no effect; with the preconditions satisfied it returns success whatever
the directory contains (per-file failures included). -/
theorem claim_C6 (env : Env) (pre : Pre) (fs : FS) (dryRun : Bool) :
    ((organize_files env pre fs dryRun).1 = false ↔
      (pre.dirExists = false ∨ pre.dirIsDir = false ∨ pre.listOk = false)) ∧
    ((organize_files env pre fs dryRun).1 = false →
      (organize_files env pre fs dryRun).2 = initState fs) := by
  rcases pre with ⟨e, i, l⟩
  cases e <;> cases i <;> cases l <;> simp [organize_files]

theorem claim_C6_witness :
    (organize_files ⟨false, 2025, 1, 1, "/t"⟩ ⟨false, true, true⟩
        ⟨[⟨"a.txt", EntryInfo.file ⟨ExifRead.noExif, some ⟨none, 0, 0⟩, true⟩⟩], []⟩ false).2
      = initState ⟨[⟨"a.txt", EntryInfo.file ⟨ExifRead.noExif, some ⟨none, 0, 0⟩, true⟩⟩], []⟩ :=
  (claim_C6 ⟨false, 2025, 1, 1, "/t"⟩ ⟨false, true, true⟩
      ⟨[⟨"a.txt", EntryInfo.file ⟨ExifRead.noExif, some ⟨none, 0, 0⟩, true⟩⟩], []⟩ false).2
    (by decide)

/-- C10 (implicit): the CLI organizer's own-file skip is by base-name
equality alone — any non-directory entry named `chronosort.py` is skipped
and counted as skipped, whatever its contents, target directory, or
environment. -/
theorem claim_C10 (env : Env) (dryRun : Bool) (st : RunState)
    (h : isDirAt st.fs scriptSelf = false) :
    stepItem env dryRun st scriptSelf =
      { st with skipped := st.skipped + 1,
                log := st.log ++ [Event.skipEntry scriptSelf] } := by
  simp [stepItem, h]

theorem claim_C10_witness :
    stepItem ⟨true, 2025, 1, 1, "/unrelated"⟩ false
        ⟨⟨[⟨"chronosort.py", EntryInfo.file ⟨ExifRead.noExif, some ⟨none, 0, 0⟩, true⟩⟩], []⟩,
         0, 0, []⟩ scriptSelf
      = ⟨⟨[⟨"chronosort.py", EntryInfo.file ⟨ExifRead.noExif, some ⟨none, 0, 0⟩, true⟩⟩], []⟩,
         0, 1, [Event.skipEntry scriptSelf]⟩ :=
  claim_C10 ⟨true, 2025, 1, 1, "/unrelated"⟩ false
    ⟨⟨[⟨"chronosort.py", EntryInfo.file ⟨ExifRead.noExif, some ⟨none, 0, 0⟩, true⟩⟩], []⟩,
     0, 0, []⟩ (by decide)

theorem stepItem_counts (env : Env) (dryRun : Bool) (st : RunState) (item : String)
    (hm : st.moved = st.log.countP countsAsMoved)
    (hs : st.skipped = st.log.countP countsAsSkipped) :
    (stepItem env dryRun st item).moved
        = (stepItem env dryRun st item).log.countP countsAsMoved ∧
    (stepItem env dryRun st item).skipped
        = (stepItem env dryRun st item).log.countP countsAsSkipped := by
  simp only [stepItem]
  split_ifs <;>
    simp_all [List.countP_append, List.countP_cons, countsAsMoved, countsAsSkipped]

theorem foldl_counts (env : Env) (dryRun : Bool) (items : List String) :
    ∀ st : RunState, st.moved = st.log.countP countsAsMoved →
      st.skipped = st.log.countP countsAsSkipped →
      ((items.foldl (stepItem env dryRun) st).moved
          = (items.foldl (stepItem env dryRun) st).log.countP countsAsMoved ∧
        (items.foldl (stepItem env dryRun) st).skipped
          = (items.foldl (stepItem env dryRun) st).log.countP countsAsSkipped) := by
  induction items with
  | nil => intro st hm hs; exact ⟨hm, hs⟩
  | cons x xs ih =>
    intro st hm hs
    rw [List.foldl_cons]
    rcases stepItem_counts env dryRun st x hm hs with ⟨hm', hs'⟩
    exact ih (stepItem env dryRun st x) hm' hs'

/-- C7 (counterexample): a run over a directory containing one (plain)
subdirectory skips it — the log records the skip — yet `files_skipped`
stays 0: skipped subdirectories do not increment the skipped counter. -/
theorem claim_C7_counterexample :
    (organize_files ⟨false, 2025, 1, 1, "/t"⟩ ⟨true, true, true⟩
        ⟨[⟨"archive", EntryInfo.dir⟩], [("archive", [])]⟩ false).2
      = ⟨⟨[⟨"archive", EntryInfo.dir⟩], [("archive", [])]⟩, 0, 0,
         [Event.skipDir "archive"]⟩ := by
  decide

/-- C7 (amended): at the end of every run `files_moved` equals the number
of processed (moved or, in dry-run, would-move) files and `files_skipped`
equals the number of hidden-entry skips, own-file skips and per-file move
failures; skipped subdirectories (date folders or not) are logged but do
not increment the skipped counter. -/
theorem claim_C7 (env : Env) (pre : Pre) (fs : FS) (dryRun : Bool) :
    ((organize_files env pre fs dryRun).2).moved
        = ((organize_files env pre fs dryRun).2).log.countP countsAsMoved ∧
    ((organize_files env pre fs dryRun).2).skipped
        = ((organize_files env pre fs dryRun).2).log.countP countsAsSkipped := by
  unfold organize_files
  split
  · simp [initState]
  · split
    · simp [initState]
    · split
      · simp [initState]
      · exact foldl_counts env dryRun (fs.root.map (·.name)) (initState fs) rfl rfl

/-- C8 (counterexample): the organizer classifies directory `2024-1-15` as
an already-organized date folder (Python's `strptime` accepts unpadded
month/day fields), although that name does not match the exact
`YYYY-MM-DD` format. -/
theorem claim_C8_counterexample :
    stepItem ⟨false, 2025, 1, 1, "/t"⟩ false
        ⟨⟨[⟨"2024-1-15", EntryInfo.dir⟩], [("2024-1-15", [])]⟩, 0, 0, []⟩ "2024-1-15"
      = ⟨⟨[⟨"2024-1-15", EntryInfo.dir⟩], [("2024-1-15", [])]⟩, 0, 0,
         [Event.skipDateFolder "2024-1-15"]⟩ ∧
    specDateFolderExact "2024-1-15" = false := by
  decide

/-- C8 (amended): every subdirectory is skipped without being descended
into or otherwise touched, and it is classified as an already-organized
date folder exactly when `is_date_folder` accepts its name — i.e. when it
parses under `strptime('%Y-%m-%d')` as a valid calendar date with a
four-digit year and one- or two-digit month and day (so `2024-01-15` and
`2024-1-15` are date folders, while `archive`, `2024-02-30` and
`2024-13-01` are not). -/
theorem claim_C8 (env : Env) (dryRun : Bool) (st : RunState) (item : String)
    (h : isDirAt st.fs item = true) :
    (stepItem env dryRun st item =
      { st with log := st.log ++
          [if is_date_folder item then Event.skipDateFolder item else Event.skipDir item] }) ∧
    is_date_folder "2024-01-15" = true ∧ is_date_folder "archive" = false ∧
    is_date_folder "2024-1-15" = true ∧ is_date_folder "2024-02-30" = false ∧
    is_date_folder "2024-13-01" = false := by
  refine ⟨?_, by decide, by decide, by decide, by decide, by decide⟩
  by_cases hd : is_date_folder item <;> simp [stepItem, h, hd]

theorem claim_C8_witness :
    (stepItem ⟨false, 2025, 1, 1, "/t"⟩ false
        ⟨⟨[⟨"2023-05-01", EntryInfo.dir⟩], [("2023-05-01", [])]⟩, 0, 0, []⟩ "2023-05-01"
      = { fs := ⟨[⟨"2023-05-01", EntryInfo.dir⟩], [("2023-05-01", [])]⟩, moved := 0,
          skipped := 0,
          log := [] ++ [if is_date_folder "2023-05-01" then
              Event.skipDateFolder "2023-05-01" else Event.skipDir "2023-05-01"] }) ∧
    is_date_folder "2024-01-15" = true ∧ is_date_folder "archive" = false ∧
    is_date_folder "2024-1-15" = true ∧ is_date_folder "2024-02-30" = false ∧
    is_date_folder "2024-13-01" = false :=
  claim_C8 ⟨false, 2025, 1, 1, "/t"⟩ false
    ⟨⟨[⟨"2023-05-01", EntryInfo.dir⟩], [("2023-05-01", [])]⟩, 0, 0, []⟩ "2023-05-01"
    (by decide)

theorem find?_update_list (l : List (String × List String)) (folder dest : String) :
    (((if (l.find? (fun p => p.1 == folder)).isSome then
          l.map (fun p => if p.1 == folder then (p.1, p.2 ++ [dest]) else p)
        else l ++ [(folder, [dest])]).find? (fun p => p.1 == folder)).map (·.2))
      = some ((((l.find? (fun p => p.1 == folder)).map (·.2)).getD []) ++ [dest]) := by
  induction l with
  | nil => simp
  | cons q rest ih =>
    by_cases hq : (q.1 == folder) = true
    · have h1 : List.find? (fun p => p.1 == folder) (q :: rest) = some q :=
        List.find?_cons_of_pos _ hq
      rw [h1]
      simp only [Option.isSome_some, if_true, List.map_cons, if_pos hq]
      have h2 : List.find? (fun p => p.1 == folder)
          ((q.1, q.2 ++ [dest]) :: rest.map (fun p => if p.1 == folder then (p.1, p.2 ++ [dest]) else p))
          = some (q.1, q.2 ++ [dest]) :=
        List.find?_cons_of_pos _ hq
      rw [h2]
      simp
    · have h1 : List.find? (fun p => p.1 == folder) (q :: rest)
          = List.find? (fun p => p.1 == folder) rest :=
        List.find?_cons_of_neg _ hq
      rw [h1]
      by_cases hr : (List.find? (fun p => p.1 == folder) rest).isSome
      · rw [if_pos hr] at ih ⊢
        rw [List.map_cons, if_neg hq,
          List.find?_cons_of_neg (p := fun p => p.1 == folder) (a := q) _ hq]
        exact ih
      · rw [if_neg hr] at ih ⊢
        rw [List.cons_append,
          List.find?_cons_of_neg (p := fun p => p.1 == folder) (a := q) _ hq]
        exact ih

/-- After `shutil.move`, the destination folder contains exactly its old
contents plus the chosen destination name. -/
theorem subContents_moveFile (fs : FS) (item folder dest : String) :
    subContents (moveFile fs item folder dest) folder
      = some ((subContents fs folder).getD [] ++ [dest]) := by
  have h := find?_update_list fs.sub folder dest
  simp only [subContents, moveFile]
  exact h

/-- C4: in execute mode, a processable regular file is moved into its date
folder under a destination name that never collides with an existing file
there: the original name if it is free, otherwise `base_N ext` for the
least `N ≥ 1` whose name is free (every smaller suffix being taken); the
folder afterwards holds its previous contents plus the moved file, so
nothing is overwritten. -/
theorem claim_C4 (env : Env) (st : RunState) (item : String) (fd : FileData)
    (hdir : isDirAt st.fs item = false)
    (hhid : pyStartsWith item "." = false)
    (hself : ¬ item = scriptSelf)
    (hfd : lookupRoot st.fs item = some (EntryInfo.file fd))
    (hmv : fd.movable = true)
    (hfolder : isDirAt (create_date_folder st.fs
        (get_file_date env (env.targetPath ++ "/" ++ item) fd)).1
        (get_file_date env (env.targetPath ++ "/" ++ item) fd) = true) :
    let fdate := get_file_date env (env.targetPath ++ "/" ++ item) fd
    let cf := create_date_folder st.fs fdate
    let occ := (subContents cf.1 fdate).getD []
    let dest := destName occ item
    dest ∉ occ ∧
    (item ∈ occ → ∃ N, 1 ≤ N ∧ dest = mkName (splitext item).1 (splitext item).2 N ∧
      ∀ k, 1 ≤ k → k < N → mkName (splitext item).1 (splitext item).2 k ∈ occ) ∧
    stepItem env false st item =
      { fs := moveFile cf.1 item fdate dest, moved := st.moved + 1, skipped := st.skipped,
        log := st.log ++ (if cf.2 then [Event.createdFolder fdate] else [])
          ++ [Event.movedFile item fdate dest] } ∧
    subContents (moveFile cf.1 item fdate dest) fdate = some (occ ++ [dest]) := by
  intro fdate cf occ dest
  refine ⟨destName_not_mem occ item, fun hin => destName_least occ item hin, ?_,
    subContents_moveFile cf.1 item fdate dest⟩
  simp only [stepItem, hdir, hhid, hself, hfd, hmv, hfolder]
  unfold_let dest occ cf fdate
  cases hsub : subContents (create_date_folder st.fs
      (get_file_date env (env.targetPath ++ "/" ++ item) fd)).1
      (get_file_date env (env.targetPath ++ "/" ++ item) fd) with
  | none => simp [hsub, List.append_assoc]
  | some l => simp [hsub, List.append_assoc]

theorem claim_C4_witness :
    destName ["a.txt", "a_1.txt"] "a.txt" ∉ ["a.txt", "a_1.txt"] ∧
    stepItem ⟨false, 2025, 1, 1, "/t"⟩ false
        ⟨⟨[⟨"a.txt", EntryInfo.file ⟨ExifRead.noExif, some ⟨some 0, 0, 0⟩, true⟩⟩,
           ⟨"1970-01-01", EntryInfo.dir⟩],
          [("1970-01-01", ["a.txt", "a_1.txt"])]⟩, 0, 0, []⟩ "a.txt"
      = ⟨⟨[⟨"1970-01-01", EntryInfo.dir⟩],
          [("1970-01-01", ["a.txt", "a_1.txt", "a_2.txt"])]⟩, 1, 0,
         [Event.movedFile "a.txt" "1970-01-01" "a_2.txt"]⟩ := by
  have h := claim_C4 ⟨false, 2025, 1, 1, "/t"⟩
    ⟨⟨[⟨"a.txt", EntryInfo.file ⟨ExifRead.noExif, some ⟨some 0, 0, 0⟩, true⟩⟩,
       ⟨"1970-01-01", EntryInfo.dir⟩],
      [("1970-01-01", ["a.txt", "a_1.txt"])]⟩, 0, 0, []⟩ "a.txt"
    ⟨ExifRead.noExif, some ⟨some 0, 0, 0⟩, true⟩
    (by decide) (by decide) (by decide) (by decide) rfl (by decide)
  exact ⟨h.1, h.2.2.1⟩
